import Mathlib

/-!
Verification development for the slab pool allocator
(`src/spallocator/slab.hpp`, `src/spallocator/objectAlive.hpp`,
`src/spallocator/lifetimeobserver.hpp`).

The C++ is shallowly embedded: the mutable `Slab`, `Pool` and
`LifetimeObserver` objects become explicit state records, each public
operation becomes a state-passing function, and C++ exceptions become
`Except` errors.  Since in the source every throwing path of the modelled
operations throws before mutating any member, a result of `.error e`
faithfully corresponds to "the operation failed and the object is
unchanged".  Debug-build `runtime_assert` failures (which abort) are
modelled as the distinguished error `preconditionViolated`.

Addresses returned by the system allocator are modelled by an address
supply `sigma : Nat -> Nat` mapping the n-th chunk allocation of a slab to
its base address; a null pointer is address 0.
-/

deriving instance DecidableEq for Except

namespace SlabPool

/-- 1_GB from helper.hpp: 1024 * 1024 * 1024. -/
def oneGB : Nat := 1073741824

/-- The fixed class ladder, as instantiated by `Pool::Pool()`. -/
def ladder : List Nat := [16, 32, 48, 64, 96, 128, 192, 256, 384, 512, 768, 1024]

/-- `selectBufferSize<ElemSize>()` from slab.hpp: 4 KiB for classes below
1 KiB, otherwise `ElemSize * 4`. -/
def selectBufferSize (elemSize : Nat) : Nat :=
  if elemSize < 1024 then 4096 else elemSize * 4

/-- `max_slabs = 4_GB / slab_alloc_size` from slab.hpp. -/
def maxSlabs (elemSize : Nat) : Nat := 4294967296 / selectBufferSize elemSize

/-- Number of slots per chunk: the size of the `std::bitset<slab_alloc_size /
ElemSize>` occupancy bitmap. -/
def slotCount (elemSize : Nat) : Nat := selectBufferSize elemSize / elemSize

/-- Error outcomes of the modelled operations: `std::out_of_range`,
`std::invalid_argument`, and a failed debug `runtime_assert` (abort). -/
inductive AllocError where
  | outOfRange
  | invalidArgument
  | preconditionViolated
deriving DecidableEq, Repr

/-- State of one `Slab<ElemSize>`:
`bases` is `slab_data` (chunk base addresses, in allocation order; the
`base_address_map` of the source maps each base to its index and is kept
consistent by construction, so it is derived from `bases` here);
`slabMap` is `slab_map` (per-chunk occupancy bitmaps, true = allocated);
`fullSet` records exactly the indices whose bit in `slab_available_map`
is 0 (the constructor sets every availability bit, so the construction
state is the empty set, and `reset`/`set` on a bit insert/erase its
index). -/
structure SlabState where
  bases : List Nat
  slabMap : List (List Bool)
  fullSet : Finset Nat
deriving DecidableEq

instance : Inhabited SlabState := ⟨⟨[], [], ∅⟩⟩

/-- `slab_available_map.test(k)` (for k below the bitset size). -/
def availTest (s : SlabState) (k : Nat) : Bool := decide (k ∉ s.fullSet)

/-- The inner scan of `allocateItem`: index of the first 0 bit of an
occupancy bitmap. -/
def findFreeSlot (occ : List Bool) : Option Nat := occ.findIdx? (fun b => !b)

/-- The mutation performed by `allocateNewSlab` once its capacity check has
passed: push a fresh chunk (base address taken from the supply), record it
in the base-address map, and append an all-zero occupancy bitmap. -/
def pushChunk (elemSize : Nat) (sigma : Nat → Nat) (s : SlabState) : SlabState :=
  { bases := s.bases ++ [sigma s.bases.length]
    slabMap := s.slabMap ++ [List.replicate (slotCount elemSize) false]
    fullSet := s.fullSet }

/-- `Slab<ElemSize>::allocateNewSlab()`. -/
def allocateNewSlab (elemSize : Nat) (sigma : Nat → Nat) (s : SlabState) :
    Except AllocError SlabState :=
  if maxSlabs elemSize ≤ s.bases.length then .error .outOfRange
  else .ok (pushChunk elemSize sigma s)

/-- The `while (slab_index >= slab_data.size()) allocateNewSlab();` loop in
`allocateItem`, with the body of `allocateNewSlab` inlined (its capacity
check, then the push). -/
def growWhile (elemSize : Nat) (sigma : Nat → Nat) (s : SlabState) (k : Nat) :
    Except AllocError SlabState :=
  if s.bases.length ≤ k then
    if maxSlabs elemSize ≤ s.bases.length then .error .outOfRange
    else growWhile elemSize sigma (pushChunk elemSize sigma s) k
  else .ok s
termination_by k + 1 - s.bases.length
decreasing_by
  simp only [pushChunk, List.length_append, List.length_cons, List.length_nil]
  omega

/-- The `for (slab_index = 0; slab_index <= slab_map.size(); ++slab_index)`
scan of `Slab<ElemSize>::allocateItem`, started at index `k`.  Falling off
the loop throws `std::out_of_range` (exhaustion); `slab_available_map`
has `max_slabs` bits, so `test` at an index at or past `max_slabs` also
throws `std::out_of_range`. -/
def allocLoop (elemSize : Nat) (sigma : Nat → Nat) (s : SlabState) (k : Nat) :
    Except AllocError (SlabState × Nat) :=
  if s.slabMap.length < k then .error .outOfRange
  else if maxSlabs elemSize ≤ k then .error .outOfRange
  else if availTest s k = false then allocLoop elemSize sigma s (k + 1)
  else
    match growWhile elemSize sigma s k with
    | .error e => .error e
    | .ok s' =>
      let occ := s'.slabMap.getD k []
      match findFreeSlot occ with
      | some j =>
        let occ' := occ.set j true
        .ok ({ bases := s'.bases
               slabMap := s'.slabMap.set k occ'
               fullSet := if occ'.all (fun b => b) then insert k s'.fullSet else s'.fullSet },
             s'.bases.getD k 0 + j * elemSize)
      | none => allocLoop elemSize sigma s' (k + 1)
termination_by maxSlabs elemSize + 1 - k
decreasing_by
  · omega
  · omega

/-- `Slab<ElemSize>::allocateItem(size)`.  The debug `runtime_assert`
rejecting sizes above the class size aborts, modelled as
`preconditionViolated`. -/
def allocateItem (elemSize : Nat) (sigma : Nat → Nat) (s : SlabState) (size : Nat) :
    Except AllocError (SlabState × Nat) :=
  if elemSize < size then .error .preconditionViolated
  else allocLoop elemSize sigma s 0

/-- Iteration of `base_address_map` for the predecessor query: fold over the
indexed chunk bases keeping the greatest base not above `item` (ties go to
the later insertion, matching map-overwrite semantics; bases are distinct
in every real run). -/
def predBaseGo (item : Nat) : List Nat → Nat → Option (Nat × Nat) → Option (Nat × Nat)
  | [], _, acc => acc
  | b :: rest, idx, acc =>
    predBaseGo item rest (idx + 1)
      (if b ≤ item then
        match acc with
        | none => some (idx, b)
        | some (i0, b0) => if b0 ≤ b then some (idx, b) else some (i0, b0)
      else acc)

/-- `base_address_map.upper_bound(item)` followed by the decrement: the
entry (chunk index, base) with the greatest base not above `item`. -/
def predBase (s : SlabState) (item : Nat) : Option (Nat × Nat) :=
  predBaseGo item s.bases 0 none

/-- `Slab<ElemSize>::findSlabForItem(item)`. -/
def findSlabForItem (elemSize : Nat) (s : SlabState) (item : Nat) : Option Nat :=
  match predBase s item with
  | some (i, b) =>
    if b ≤ item ∧ item < b + selectBufferSize elemSize then some i else none
  | none => none

/-- `Slab<ElemSize>::deallocateItem(item)`.  A null pointer returns without
doing anything; an unknown pointer or an already-free slot throws
`std::invalid_argument` before any mutation; a slot index falling beyond
the occupancy bitmap (possible in the trailing slack of a chunk whose size
is not a multiple of the class size) makes `bitset::test` throw
`std::out_of_range`. -/
def deallocateItem (elemSize : Nat) (s : SlabState) (item : Nat) :
    Except AllocError SlabState :=
  if item = 0 then .ok s
  else
    match findSlabForItem elemSize s item with
    | none => .error .invalidArgument
    | some i =>
      let base := s.bases.getD i 0
      let j := (item - base) / elemSize
      let occ := s.slabMap.getD i []
      if occ.length ≤ j then .error .outOfRange
      else if occ.getD j false then
        .ok { bases := s.bases
              slabMap := s.slabMap.set i (occ.set j false)
              fullSet := s.fullSet.erase i }
      else .error .invalidArgument

/-- `Slab<ElemSize>::Slab()`: set every availability bit (empty `fullSet`),
then allocate the first chunk eagerly. -/
def slabConstruct (elemSize : Nat) (sigma : Nat → Nat) : Except AllocError SlabState :=
  allocateNewSlab elemSize sigma { bases := [], slabMap := [], fullSet := ∅ }

/-- `SlabProxy::allocateItem(elem_size)`: two debug assertions (only sizes
above 1 KiB and at most 1 GiB belong here), then a plain system
allocation, modelled by handing back the supplied fresh address. -/
def slabProxyAllocateItem (addr : Nat) (elemSize : Nat) : Except AllocError Nat :=
  if ¬ 1024 < elemSize then .error .preconditionViolated
  else if ¬ elemSize ≤ oneGB then .error .preconditionViolated
  else .ok addr

/-! ### Byte memory

The per-allocation header of `Pool` is written through raw pointers.
Memory is a map from addresses to byte values; a write stores the value
modulo 256 (one byte), and the 32-bit read assembles four consecutive
little-endian bytes exactly as a `uint32_t*` load does on the
little-endian targets the source assumes. -/

def writeByte (mem : Nat → Nat) (a v : Nat) : Nat → Nat :=
  fun x => if x = a then v % 256 else mem x

/-- `*reinterpret_cast<uint32_t*>(p) = uint32_t(v & 0xffffffff)`. -/
def writeU32LE (mem : Nat → Nat) (a v : Nat) : Nat → Nat :=
  writeByte (writeByte (writeByte (writeByte mem a v) (a + 1) (v / 256))
    (a + 2) (v / 65536)) (a + 3) (v / 16777216)

/-- Load of a `uint32_t` at address `a` (little endian). -/
def readU32LE (mem : Nat → Nat) (a : Nat) : Nat :=
  mem a % 256 + 256 * (mem (a + 1) % 256) + 65536 * (mem (a + 2) % 256)
    + 16777216 * (mem (a + 3) % 256)

/-- Load of a `uint8_t` at address `a`. -/
def readU8 (mem : Nat → Nat) (a : Nat) : Nat := mem a % 256

/-! ### Pool -/

/-- `Pool::selectSlab(size)`: the class-selection ladder.  The source
returns `SIZE_MAX` as the large-backend sentinel; here that is `none`. -/
def selectSlab (size : Nat) : Option Nat :=
  if size ≤ 16 then some 0
  else if size ≤ 32 then some 1
  else if size ≤ 48 then some 2
  else if size ≤ 64 then some 3
  else if size ≤ 96 then some 4
  else if size ≤ 128 then some 5
  else if size ≤ 192 then some 6
  else if size ≤ 256 then some 7
  else if size ≤ 384 then some 8
  else if size ≤ 512 then some 9
  else if size ≤ 768 then some 10
  else if size ≤ 1024 then some 11
  else none

/-- The alignment validation of `Pool::allocate` (objectAlive.hpp lines
274-281), in the debug build: two `runtime_assert`s (power of two at
least 4; at most 16) abort on failure, then the plain range check throws
`std::invalid_argument`. -/
def checkAlignment (alignment : Nat) : Except AllocError Unit :=
  if ¬ (4 ≤ alignment ∧ alignment &&& (alignment - 1) = 0) then .error .preconditionViolated
  else if ¬ alignment ≤ 16 then .error .preconditionViolated
  else if alignment < 4 ∨ 16 < alignment then .error .invalidArgument
  else .ok ()

/-- State of a `Pool`: the twelve small slabs (index into `ladder` gives
the class size), the byte memory the headers are written into, and the
count of large allocations handed out so far (used to index the fresh
addresses the system allocator returns for `SlabProxy`). -/
structure PoolState where
  slabs : List SlabState
  mem : Nat → Nat
  largeCount : Nat

instance : Inhabited PoolState := ⟨⟨[], fun _ => 0, 0⟩⟩

/-- `Pool::allocate(item_size, alignment)` in the debug build.  The address
supply `sigma i` serves slab `i`; `sigma 12` serves the large backend. -/
def poolAllocate (sigma : Nat → Nat → Nat) (p : PoolState)
    (itemSize alignment : Nat) : Except AllocError (PoolState × Nat) :=
  if oneGB < itemSize then .error .outOfRange
  else
    match checkAlignment alignment with
    | .error e => .error e
    | .ok _ =>
      let headerSize := if 8 < alignment then alignment else 8
      let allocSize := itemSize + headerSize
      match selectSlab allocSize with
      | some idx =>
        match allocateItem (ladder.getD idx 0) (sigma idx) (p.slabs.getD idx default)
            allocSize with
        | .error e => .error e
        | .ok (s', ptr) =>
          let mem' := writeByte (writeU32LE p.mem (ptr + headerSize - 4) allocSize)
            (ptr + headerSize - 5) headerSize
          .ok ({ slabs := p.slabs.set idx s', mem := mem', largeCount := p.largeCount },
               ptr + headerSize)
      | none =>
        match slabProxyAllocateItem (sigma 12 p.largeCount) allocSize with
        | .error e => .error e
        | .ok ptr =>
          let mem' := writeByte (writeU32LE p.mem (ptr + headerSize - 4) allocSize)
            (ptr + headerSize - 5) headerSize
          .ok ({ slabs := p.slabs, mem := mem', largeCount := p.largeCount + 1 },
               ptr + headerSize)

/-- The dispatch tail of `Pool::deallocate`: route the original pointer to
the slab selected by the recovered allocation size (the `SlabProxy`
branch frees through the system allocator, leaving the modelled state
unchanged). -/
def poolDeallocAt (p : PoolState) (allocSize orig : Nat) : Except AllocError PoolState :=
  match selectSlab allocSize with
  | some idx =>
    match deallocateItem (ladder.getD idx 0) (p.slabs.getD idx default) orig with
    | .error e => .error e
    | .ok s' => .ok { slabs := p.slabs.set idx s', mem := p.mem, largeCount := p.largeCount }
  | none => .ok p

/-- `Pool::deallocate(item)`: null is a no-op; otherwise read the
allocation size (u32 at `item - 4`) and header size (u8 at `item - 5`)
and dispatch on `item - header_size`. -/
def poolDeallocate (p : PoolState) (item : Nat) : Except AllocError PoolState :=
  if item = 0 then .ok p
  else poolDeallocAt p (readU32LE p.mem (item - 4)) (item - readU8 p.mem (item - 5))

/-- `Pool::Pool()`: construct the twelve small slabs in ladder order. -/
def poolConstruct (sigma : Nat → Nat → Nat) : Except AllocError PoolState := do
  let s0 ← slabConstruct 16 (sigma 0)
  let s1 ← slabConstruct 32 (sigma 1)
  let s2 ← slabConstruct 48 (sigma 2)
  let s3 ← slabConstruct 64 (sigma 3)
  let s4 ← slabConstruct 96 (sigma 4)
  let s5 ← slabConstruct 128 (sigma 5)
  let s6 ← slabConstruct 192 (sigma 6)
  let s7 ← slabConstruct 256 (sigma 7)
  let s8 ← slabConstruct 384 (sigma 8)
  let s9 ← slabConstruct 512 (sigma 9)
  let s10 ← slabConstruct 768 (sigma 10)
  let s11 ← slabConstruct 1024 (sigma 11)
  pure { slabs := [s0, s1, s2, s3, s4, s5, s6, s7, s8, s9, s10, s11]
         mem := fun _ => 0
         largeCount := 0 }

/-! ### LifetimeObserver

`LifetimeObserver` handles point at heap-allocated `ControlBlock`s holding
a signed owner count and observer count.  The heap is a list of blocks
(`none` after `delete`); handles are a list of `(block id, my_ownership)`
pairs (`none` after destruction).  Operations whose C++ counterpart
dereferences a deleted block (or a dead handle) are undefined behaviour
and return `none`. -/

/-- `LifetimeObserver::e_refType`. -/
inductive RefType where
  | owner
  | observer
deriving DecidableEq, Repr

/-- `ControlBlock` contents: `(owner_count, observer_count)`, both
`int64_t`. -/
abbrev Counts := Int × Int

/-- `ControlBlock::addRef(ref_type)`. -/
def addRefCB (c : Counts) : RefType → Counts
  | .owner => (c.1 + 1, c.2)
  | .observer => (c.1, c.2 + 1)

/-- `ControlBlock::releaseRef(ref_type)`. -/
def releaseRefCB (c : Counts) : RefType → Counts
  | .owner => (c.1 - 1, c.2)
  | .observer => (c.1, c.2 - 1)

/-- `ControlBlock::getCount(ref_type)`. -/
def getCountCB (c : Counts) : RefType → Int
  | .owner => c.1
  | .observer => c.2

/-- `new ControlBlock(ref_type)`: counts start at zero, then
`addRef(ref_type)`. -/
def newControlBlock (t : RefType) : Counts := addRefCB (0, 0) t

/-- The heap of control blocks plus all live handles. -/
structure LOState where
  blocks : List (Option Counts)
  handles : List (Option (Nat × RefType))
deriving DecidableEq

/-- The `LifetimeObserver()` default constructor: a fresh owner handle on a
fresh `ControlBlock(owner)`. -/
def mkOwner (st : LOState) : LOState :=
  { blocks := st.blocks ++ [some (newControlBlock .owner)]
    handles := st.handles ++ [some (st.blocks.length, .owner)] }

/-- `getObserver()`: `LifetimeObserver(*this, e_refType::observer)` — share
the control block and `addRef(observer)`. -/
def getObserver (st : LOState) (h : Nat) : Option LOState :=
  match st.handles.getD h none with
  | none => none
  | some (b, _) =>
    match st.blocks.getD b none with
    | none => none
    | some c =>
      some { blocks := st.blocks.set b (some (addRefCB c .observer))
             handles := st.handles ++ [some (b, .observer)] }

/-- `isAlive()`: `control_block->getCount(owner) > 0` (undefined if the
block has been deleted). -/
def isAlive (st : LOState) (h : Nat) : Option Bool :=
  match st.handles.getD h none with
  | none => none
  | some (b, _) =>
    match st.blocks.getD b none with
    | none => none
    | some c => some (decide (0 < getCountCB c .owner))

/-- `~LifetimeObserver()`: release the matching count; the debug
`runtime_assert` fires if it went negative; delete the block exactly when
both counts are now zero. -/
def destroyHandle (st : LOState) (h : Nat) : Option LOState :=
  match st.handles.getD h none with
  | none => none
  | some (b, t) =>
    match st.blocks.getD b none with
    | none => none
    | some c =>
      let c' := releaseRefCB c t
      if getCountCB c' t < 0 then none
      else if getCountCB c' .owner = 0 ∧ getCountCB c' .observer = 0 then
        some { blocks := st.blocks.set b none, handles := st.handles.set h none }
      else
        some { blocks := st.blocks.set b (some c'), handles := st.handles.set h none }

/-- `operator=(LifetimeObserver&&)` (lifetimeobserver.hpp lines 312-323):
unless self-assigning, take the source's ownership kind, `delete` the
target's old control block unconditionally, take over the source's block,
and give the source a fresh owner block. -/
def moveAssign (st : LOState) (dst src : Nat) : Option LOState :=
  if dst = src then some st
  else
    match st.handles.getD dst none, st.handles.getD src none with
    | some (db, _), some (sb, stype) =>
      match st.blocks.getD db none with
      | none => none
      | some _ =>
        let blocks1 := st.blocks.set db none
        some { blocks := blocks1 ++ [some (newControlBlock .owner)]
               handles := (st.handles.set dst (some (sb, stype))).set src
                 (some (blocks1.length, .owner)) }
    | _, _ => none

/-- The internal consistency invariant of a `Slab`: the chunk sequence and
occupancy-bitmap sequence have equal length, every occupancy bitmap has
one bit per slot, the chunk count respects `max_slabs`, only existing
chunks can be marked full, and an availability bit is set exactly when
its chunk still has a free slot. -/
def SlabInv (elemSize : Nat) (s : SlabState) : Prop :=
  s.bases.length = s.slabMap.length ∧
  (∀ occ ∈ s.slabMap, occ.length = slotCount elemSize) ∧
  s.bases.length ≤ maxSlabs elemSize ∧
  (∀ k ∈ s.fullSet, k < s.bases.length) ∧
  ∀ i < s.bases.length,
    (availTest s i = true ↔
      ∃ j < slotCount elemSize, (s.slabMap.getD i []).getD j true = false)

instance (elemSize : Nat) (s : SlabState) : Decidable (SlabInv elemSize s) := by
  unfold SlabInv
  infer_instance

/-- The success path of the allocation algorithm exactly as the
specification states it, taken at the first set availability bit `i`
(which the caller supplies together with its defining properties): grow by
one chunk when `i` is at least the number of existing chunks, pick the
first 0 bit `j` of chunk `i`'s occupancy bitmap, set it, clear
availability bit `i` exactly when the bitmap has become all-ones, and
return `chunk_base[i] + j * class_size`. -/
def allocateItemSpec (elemSize : Nat) (sigma : Nat → Nat) (s : SlabState) (i : Nat) :
    Option (SlabState × Nat) :=
  let bases' := if s.bases.length ≤ i then s.bases ++ [sigma s.bases.length] else s.bases
  let maps' := if s.bases.length ≤ i then
    s.slabMap ++ [List.replicate (slotCount elemSize) false] else s.slabMap
  let occI := maps'.getD i []
  match findFreeSlot occI with
  | none => none
  | some j =>
    some ({ bases := bases'
            slabMap := maps'.set i (occI.set j true)
            fullSet := if (occI.set j true).all (fun b => b) then insert i s.fullSet
              else s.fullSet },
          bases'.getD i 0 + j * elemSize)

/-- States reachable from `Slab<ElemSize>::Slab()` by successful public
operations. -/
inductive SlabReach (elemSize : Nat) (sigma : Nat → Nat) : SlabState → Prop where
  | init : ∀ {s}, slabConstruct elemSize sigma = .ok s → SlabReach elemSize sigma s
  | alloc : ∀ {s s' size a}, SlabReach elemSize sigma s →
      allocateItem elemSize sigma s size = .ok (s', a) → SlabReach elemSize sigma s'
  | dealloc : ∀ {s s' item}, SlabReach elemSize sigma s →
      deallocateItem elemSize s item = .ok s' → SlabReach elemSize sigma s'

/-- A concrete address supply: chunk n of the slab lives at 4096·(n+1). -/
def sigmaA : Nat → Nat := fun n => 4096 + 4096 * n

/-- The state of `Slab<1024>` right after construction with `sigmaA`:
one chunk at 4096, four free slots, every availability bit set. -/
def slabA : SlabState := ⟨[4096], [[false, false, false, false]], ∅⟩

/-- Address supply for the pool witnesses: chunk n of slab i lives at
10000·(i+1) + 4096·n; large allocation n lives at 10000·13 + 4096·n. -/
def sigmaP : Nat → Nat → Nat := fun i n => 10000 * (i + 1) + 4096 * n

/-- The state used by the C9 witness: one ControlBlock with owner count 1
and observer count 1, an Owner handle 0 and an Observer handle 1. -/
def loW : LOState := ⟨[some (1, 1)], [some (0, .owner), some (0, .observer)]⟩

/-! ### Unfolding lemmas for the two slab loops

`growWhile` and `allocLoop` are defined by well-founded recursion, so they
are evaluated through these one-step equations. -/

theorem growWhile_stop {elemSize : Nat} {sigma : Nat → Nat} {s : SlabState} {k : Nat}
    (h : k < s.bases.length) : growWhile elemSize sigma s k = .ok s := by
  rw [growWhile]
  simp [Nat.not_le.mpr h]

theorem growWhile_step {elemSize : Nat} {sigma : Nat → Nat} {s : SlabState} {k : Nat}
    (h1 : s.bases.length ≤ k) (h2 : s.bases.length < maxSlabs elemSize) :
    growWhile elemSize sigma s k = growWhile elemSize sigma (pushChunk elemSize sigma s) k := by
  rw [growWhile]
  simp [h1, Nat.not_le.mpr h2]

theorem growWhile_fail {elemSize : Nat} {sigma : Nat → Nat} {s : SlabState} {k : Nat}
    (h1 : s.bases.length ≤ k) (h2 : maxSlabs elemSize ≤ s.bases.length) :
    growWhile elemSize sigma s k = .error .outOfRange := by
  rw [growWhile]
  simp [h1, h2]

theorem allocLoop_exit_overrun {elemSize : Nat} {sigma : Nat → Nat} {s : SlabState} {k : Nat}
    (h : s.slabMap.length < k) : allocLoop elemSize sigma s k = .error .outOfRange := by
  rw [allocLoop]
  simp [h]

theorem allocLoop_exit_max {elemSize : Nat} {sigma : Nat → Nat} {s : SlabState} {k : Nat}
    (h1 : k ≤ s.slabMap.length) (h2 : maxSlabs elemSize ≤ k) :
    allocLoop elemSize sigma s k = .error .outOfRange := by
  rw [allocLoop]
  simp [Nat.not_lt.mpr h1, h2]

theorem allocLoop_continue {elemSize : Nat} {sigma : Nat → Nat} {s : SlabState} {k : Nat}
    (h1 : k ≤ s.slabMap.length) (h2 : k < maxSlabs elemSize)
    (h3 : availTest s k = false) :
    allocLoop elemSize sigma s k = allocLoop elemSize sigma s (k + 1) := by
  rw [allocLoop]
  simp [Nat.not_lt.mpr h1, Nat.not_le.mpr h2, h3]

theorem allocLoop_grow_fail {elemSize : Nat} {sigma : Nat → Nat} {s : SlabState} {k : Nat}
    {e : AllocError}
    (h1 : k ≤ s.slabMap.length) (h2 : k < maxSlabs elemSize)
    (h3 : availTest s k = true) (h4 : growWhile elemSize sigma s k = .error e) :
    allocLoop elemSize sigma s k = .error e := by
  rw [allocLoop]
  simp [Nat.not_lt.mpr h1, Nat.not_le.mpr h2, h3, h4]

theorem allocLoop_found {elemSize : Nat} {sigma : Nat → Nat} {s s' : SlabState} {k j : Nat}
    (h1 : k ≤ s.slabMap.length) (h2 : k < maxSlabs elemSize)
    (h3 : availTest s k = true)
    (h4 : growWhile elemSize sigma s k = .ok s')
    (h5 : findFreeSlot (s'.slabMap.getD k []) = some j) :
    allocLoop elemSize sigma s k =
      .ok ({ bases := s'.bases
             slabMap := s'.slabMap.set k ((s'.slabMap.getD k []).set j true)
             fullSet := if ((s'.slabMap.getD k []).set j true).all (fun b => b) then
                 insert k s'.fullSet else s'.fullSet },
           s'.bases.getD k 0 + j * elemSize) := by
  rw [allocLoop]
  simp only [List.getD, List.get?_eq_getElem?] at h5
  simp [Nat.not_lt.mpr h1, Nat.not_le.mpr h2, h3, h4, h5]

theorem allocLoop_scan_fail {elemSize : Nat} {sigma : Nat → Nat} {s s' : SlabState} {k : Nat}
    (h1 : k ≤ s.slabMap.length) (h2 : k < maxSlabs elemSize)
    (h3 : availTest s k = true)
    (h4 : growWhile elemSize sigma s k = .ok s')
    (h5 : findFreeSlot (s'.slabMap.getD k []) = none) :
    allocLoop elemSize sigma s k = allocLoop elemSize sigma s' (k + 1) := by
  rw [allocLoop]
  simp only [List.getD, List.get?_eq_getElem?] at h5
  simp [Nat.not_lt.mpr h1, Nat.not_le.mpr h2, h3, h4, h5]

theorem findFreeSlot_none_iff {occ : List Bool} :
    findFreeSlot occ = none ↔ ∀ b ∈ occ, b = true := by
  simp [findFreeSlot, List.findIdx?_eq_none_iff]

theorem findFreeSlot_exists {occ : List Bool} {j : Nat}
    (hj : j < occ.length) (hb : occ.getD j true = false) :
    ∃ m, findFreeSlot occ = some m := by
  rcases h : findFreeSlot occ with _ | m
  · rw [findFreeSlot_none_iff] at h
    rw [List.getD_eq_getElem?_getD, List.getElem?_eq_getElem hj] at hb
    have := h _ (List.getElem_mem hj)
    simp [this] at hb
  · exact ⟨m, rfl⟩

theorem findFreeSlot_replicate {n : Nat} (h : 0 < n) :
    findFreeSlot (List.replicate n false) = some 0 := by
  cases n with
  | zero => omega
  | succ m => simp [findFreeSlot, List.replicate_succ, List.findIdx?_cons]

theorem slotCount_pos {elemSize : Nat} (h : 0 < elemSize) : 0 < slotCount elemSize := by
  unfold slotCount selectBufferSize
  split
  · exact Nat.div_pos (by omega) h
  · rw [Nat.mul_div_cancel_left _ h]
    omega

theorem allocLoop_skip {elemSize : Nat} {sigma : Nat → Nat} {s : SlabState} {i : Nat}
    (hi : i ≤ s.slabMap.length) (him : i ≤ maxSlabs elemSize) :
    ∀ d k, i = k + d → (∀ m, k ≤ m → m < i → availTest s m = false) →
      allocLoop elemSize sigma s k = allocLoop elemSize sigma s i := by
  intro d
  induction d with
  | zero => intro k hk _; rw [hk]; simp
  | succ d ih =>
    intro k hk hav
    rw [allocLoop_continue (by omega) (by omega) (hav k le_rfl (by omega))]
    exact ih (k + 1) (by omega) (fun m h1 h2 => hav m (by omega) h2)

theorem allocateItem_firstFit {elemSize : Nat} {sigma : Nat → Nat} {s : SlabState}
    {size i : Nat}
    (hE : 0 < elemSize)
    (hinv : SlabInv elemSize s)
    (hsz : size ≤ elemSize)
    (hi : availTest s i = true)
    (hfst : ∀ m < i, availTest s m = false)
    (him : i < maxSlabs elemSize) :
    ∃ r, allocateItemSpec elemSize sigma s i = some r ∧
      allocateItem elemSize sigma s size = .ok r := by
  obtain ⟨hlen, hocc, hcap, hfull, havail⟩ := hinv
  have hile : i ≤ s.bases.length := by
    by_contra hgt
    have h1 : availTest s s.bases.length = true := by
      simp only [availTest, decide_eq_true_eq]
      intro hmem
      exact absurd (hfull _ hmem) (lt_irrefl _)
    have h2 := hfst s.bases.length (by omega)
    rw [h1] at h2
    exact Bool.true_eq_false.mp h2
  have hstep0 : allocateItem elemSize sigma s size = allocLoop elemSize sigma s 0 := by
    rw [allocateItem, if_neg (Nat.not_lt.mpr hsz)]
  have hskip : allocLoop elemSize sigma s 0 = allocLoop elemSize sigma s i :=
    allocLoop_skip (by omega) (le_of_lt him) i 0 (by omega) (fun m _ h2 => hfst m h2)
  rcases Nat.lt_or_ge i s.bases.length with hlt | hge
  · -- chunk i already exists: no growth
    have hgw : growWhile elemSize sigma s i = .ok s := growWhile_stop hlt
    have hoccmem : s.slabMap.getD i [] ∈ s.slabMap := by
      rw [List.getD_eq_getElem?_getD, List.getElem?_eq_getElem (by omega)]
      exact List.getElem_mem _
    have hocclen : (s.slabMap.getD i []).length = slotCount elemSize := hocc _ hoccmem
    obtain ⟨j0, hj0, hb0⟩ := (havail i hlt).mp hi
    obtain ⟨j, hfind⟩ := @findFreeSlot_exists (s.slabMap.getD i []) j0 (by omega) hb0
    have hfound := @allocLoop_found elemSize sigma s s i j (by omega) him hi hgw hfind
    refine ⟨_, ?_, by rw [hstep0, hskip, hfound]⟩
    rw [allocateItemSpec]
    simp only [Nat.not_le.mpr hlt, if_false, hfind]
  · -- i = chunk count: grow by one chunk
    have hieq : i = s.bases.length := by omega
    have hgw : growWhile elemSize sigma s i = .ok (pushChunk elemSize sigma s) := by
      rw [growWhile_step hge (by omega), growWhile_stop]
      simp only [pushChunk, List.length_append, List.length_cons, List.length_nil]
      omega
    have hoccI : (pushChunk elemSize sigma s).slabMap.getD i [] =
        List.replicate (slotCount elemSize) false := by
      rw [pushChunk]
      simp only [List.getD_eq_getElem?_getD]
      rw [hieq, hlen, List.getElem?_concat_length]
      rfl
    have hfind : findFreeSlot ((pushChunk elemSize sigma s).slabMap.getD i []) = some 0 := by
      rw [hoccI]
      exact findFreeSlot_replicate (slotCount_pos hE)
    have hfound := @allocLoop_found elemSize sigma s (pushChunk elemSize sigma s) i 0
      (by rw [← hlen]; omega) him hi hgw hfind
    refine ⟨_, ?_, by rw [hstep0, hskip, hfound]⟩
    rw [allocateItemSpec]
    simp only [hge, if_true, pushChunk] at hoccI hfind ⊢
    rw [hfind]

/-- Core invariant step: marking slot `j` of chunk `i` occupied (and
clearing the availability bit exactly when the chunk became full)
preserves the slab invariant, for any chunk/bitmap sequences that already
satisfy it away from `i`. -/
theorem SlabInv_setChunk {elemSize : Nat} {fullSet0 : Finset Nat}
    {bases' : List Nat} {maps' : List (List Bool)} {i j : Nat}
    (hlen' : bases'.length = maps'.length)
    (hocc' : ∀ occ ∈ maps', occ.length = slotCount elemSize)
    (hcap' : bases'.length ≤ maxSlabs elemSize)
    (hfull' : ∀ k ∈ fullSet0, k < bases'.length)
    (havail' : ∀ m, m < bases'.length → m ≠ i →
      (m ∉ fullSet0 ↔ ∃ j' < slotCount elemSize, (maps'.getD m []).getD j' true = false))
    (hi' : i ∉ fullSet0)
    (hilt : i < bases'.length) :
    SlabInv elemSize
      { bases := bases'
        slabMap := maps'.set i ((maps'.getD i []).set j true)
        fullSet := if ((maps'.getD i []).set j true).all (fun b => b) then insert i fullSet0
          else fullSet0 } := by
  have hiM : i < maps'.length := by omega
  have hoccIlen : (maps'.getD i []).length = slotCount elemSize := by
    refine hocc' _ ?_
    rw [List.getD_eq_getElem?_getD, List.getElem?_eq_getElem hiM]
    exact List.getElem_mem _
  refine ⟨by simp [hlen'], ?_, hcap', ?_, ?_⟩
  · intro occ hmem
    rcases List.mem_or_eq_of_mem_set hmem with h | h
    · exact hocc' _ h
    · rw [h, List.length_set]
      exact hoccIlen
  · intro k hk
    show k < bases'.length
    split at hk
    · rcases Finset.mem_insert.mp hk with h | h
      · omega
      · exact hfull' _ h
    · exact hfull' _ hk
  · intro m hm
    simp only [availTest, decide_eq_true_eq]
    by_cases hmi : m = i
    · subst hmi
      have hgetD : ((maps'.set m ((maps'.getD m []).set j true)).getD m []) =
          (maps'.getD m []).set j true := by
        rw [List.getD_eq_getElem?_getD, List.getElem?_set_self (by simpa using hiM)]
        rfl
      rw [hgetD]
      by_cases hall : ((maps'.getD m []).set j true).all (fun b => b) = true
      · rw [if_pos hall]
        constructor
        · intro hmem
          exact absurd (Finset.mem_insert_self m fullSet0) hmem
        · rintro ⟨j', hj', hbit⟩
          rw [List.getD_eq_getElem?_getD] at hbit
          rcases hj'' : ((maps'.getD m []).set j true)[j']? with _ | b
          · rw [hj''] at hbit
            simp at hbit
          · rw [hj''] at hbit
            simp only [Option.getD_some] at hbit
            obtain ⟨hjlt, heq⟩ := List.getElem?_eq_some_iff.mp hj''
            have hbmem : b ∈ (maps'.getD m []).set j true := heq ▸ List.getElem_mem hjlt
            have htrue := List.all_eq_true.mp hall _ hbmem
            rw [hbit] at htrue
            exact (Bool.false_ne_true htrue).elim
      · rw [if_neg hall]
        constructor
        · intro _
          rw [List.all_eq_true] at hall
          push_neg at hall
          obtain ⟨b, hbmem, hbne⟩ := hall
          obtain ⟨idx, hidx, hb⟩ := List.mem_iff_getElem.mp hbmem
          refine ⟨idx, by
            have : ((maps'.getD m []).set j true).length = slotCount elemSize := by
              rw [List.length_set]; exact hoccIlen
            omega, ?_⟩
          rw [List.getD_eq_getElem?_getD, List.getElem?_eq_getElem hidx]
          simp only [Option.getD_some]
          rw [hb]
          exact Bool.eq_false_iff.mpr hbne
        · intro _
          exact hi'
    · have hgetD : ((maps'.set i ((maps'.getD i []).set j true)).getD m []) =
          maps'.getD m [] := by
        rw [List.getD_eq_getElem?_getD, List.getElem?_set_ne (fun h => hmi h.symm),
          ← List.getD_eq_getElem?_getD]
      rw [hgetD]
      have hmemiff : (m ∉ (if ((maps'.getD i []).set j true).all (fun b => b) then
          insert i fullSet0 else fullSet0)) ↔ m ∉ fullSet0 := by
        split
        · simp [Finset.mem_insert, hmi]
        · exact Iff.rfl
      rw [hmemiff]
      exact havail' m hm hmi

theorem allocateItemSpec_inv {elemSize : Nat} {sigma : Nat → Nat} {s : SlabState}
    {i : Nat} {r : SlabState × Nat}
    (hinv : SlabInv elemSize s) (hile : i ≤ s.bases.length)
    (him : i < maxSlabs elemSize) (hi : availTest s i = true)
    (hspec : allocateItemSpec elemSize sigma s i = some r) :
    SlabInv elemSize r.1 := by
  obtain ⟨hlen, hocc, hcap, hfull, havail⟩ := hinv
  have hinotfull : i ∉ s.fullSet := by
    simpa [availTest] using hi
  simp only [allocateItemSpec] at hspec
  rcases hf : findFreeSlot ((if s.bases.length ≤ i then
      s.slabMap ++ [List.replicate (slotCount elemSize) false] else s.slabMap).getD i [])
    with _ | j
  · rw [hf] at hspec
    simp at hspec
  · rw [hf] at hspec
    have hr := (Option.some.inj hspec).symm
    rw [hr]
    by_cases hg : s.bases.length ≤ i
    · -- growth case: i = chunk count
      have hieq : i = s.bases.length := by omega
      simp only [hg, if_true]
      refine SlabInv_setChunk ?_ ?_ ?_ ?_ ?_ hinotfull ?_
      · simp [hlen]
      · intro occ hmem
        rcases List.mem_append.mp hmem with h | h
        · exact hocc _ h
        · rw [List.mem_singleton.mp h]
          exact List.length_replicate _ _
      · simp
        omega
      · intro k hk
        have := hfull _ hk
        simp
        omega
      · intro m hm hmi
        simp only [List.length_append, List.length_singleton] at hm
        have hmlt : m < s.bases.length := by omega
        have hgetD : (s.slabMap ++ [List.replicate (slotCount elemSize) false]).getD m [] =
            s.slabMap.getD m [] := by
          rw [List.getD_eq_getElem?_getD, List.getElem?_append, if_pos (by omega),
            ← List.getD_eq_getElem?_getD]
        rw [hgetD]
        have := havail m hmlt
        simpa [availTest] using this
      · simp
        omega
    · -- no growth: chunk i exists
      have hlt : i < s.bases.length := by omega
      simp only [hg, if_false]
      refine SlabInv_setChunk hlen hocc hcap hfull ?_ hinotfull hlt
      intro m hm hmi
      have := havail m hm
      simpa [availTest] using this

theorem allocateItem_ok_SlabInv {elemSize : Nat} {sigma : Nat → Nat} {s : SlabState}
    {size : Nat} {s' : SlabState} {a : Nat}
    (hE : 0 < elemSize) (hinv : SlabInv elemSize s)
    (hok : allocateItem elemSize sigma s size = .ok (s', a)) :
    SlabInv elemSize s' := by
  have hsz : size ≤ elemSize := by
    by_contra h
    rw [allocateItem, if_pos (by omega)] at hok
    cases hok
  have hcount : availTest s s.bases.length = true := by
    simp only [availTest, decide_eq_true_eq]
    intro hmem
    exact absurd (hinv.2.2.2.1 _ hmem) (lt_irrefl _)
  have hex : ∃ k, availTest s k = true := ⟨s.bases.length, hcount⟩
  have hi := Nat.find_spec hex
  have hfst : ∀ m < Nat.find hex, availTest s m = false := by
    intro m hm
    have := Nat.find_min hex hm
    revert this
    cases availTest s m <;> simp
  have hile : Nat.find hex ≤ s.bases.length := Nat.find_min' hex hcount
  rcases Nat.lt_or_ge (Nat.find hex) (maxSlabs elemSize) with him | him
  · obtain ⟨r, hspec, hok'⟩ :=
      @allocateItem_firstFit elemSize sigma s size (Nat.find hex) hE hinv hsz hi hfst him
    rw [hok] at hok'
    have : (s', a) = r := by
      injection hok'
    rw [← this] at hspec
    exact allocateItemSpec_inv hinv hile him hi hspec
  · -- all availability bits below max_slabs are clear: the loop exhausts
    exfalso
    have hieq : Nat.find hex = maxSlabs elemSize := by
      have := hinv.2.2.1
      omega
    have hmapslen : Nat.find hex ≤ s.slabMap.length := by
      have := hinv.1
      omega
    have hskip := @allocLoop_skip elemSize sigma s (Nat.find hex)
      hmapslen (le_of_eq hieq) (Nat.find hex) 0 (by omega) (fun m _ h2 => hfst m h2)
    rw [allocateItem, if_neg (Nat.not_lt.mpr hsz), hskip,
      allocLoop_exit_max hmapslen (le_of_eq hieq.symm)] at hok
    cases hok

theorem predBaseGo_some {item : Nat} :
    ∀ (l : List Nat) (idx : Nat) (acc : Option (Nat × Nat)) {i b : Nat},
      predBaseGo item l idx acc = some (i, b) →
      acc = some (i, b) ∨ ∃ m < l.length, i = idx + m ∧ l.getD m 0 = b ∧ b ≤ item := by
  intro l
  induction l with
  | nil =>
    intro idx acc i b h
    exact Or.inl h
  | cons hd tl ih =>
    intro idx acc i b h
    rw [predBaseGo.eq_def] at h
    rcases ih (idx + 1) _ h with hacc | ⟨m, hm, hi4, hb4, hble⟩
    · by_cases hhd : hd ≤ item
      · rw [if_pos hhd] at hacc
        rcases acc with _ | ⟨i0, b0⟩
        · dsimp only at hacc
          have h1 : idx = i ∧ hd = b := by
            have := Option.some.inj hacc
            exact ⟨congrArg Prod.fst this, congrArg Prod.snd this⟩
          right
          exact ⟨0, by simp, by omega, by simp [h1.2], h1.2 ▸ hhd⟩
        · dsimp only at hacc
          by_cases hcmp : b0 ≤ hd
          · rw [if_pos hcmp] at hacc
            have h1 : idx = i ∧ hd = b := by
              have := Option.some.inj hacc
              exact ⟨congrArg Prod.fst this, congrArg Prod.snd this⟩
            right
            exact ⟨0, by simp, by omega, by simp [h1.2], h1.2 ▸ hhd⟩
          · rw [if_neg hcmp] at hacc
            exact Or.inl hacc
      · rw [if_neg hhd] at hacc
        exact Or.inl hacc
    · right
      exact ⟨m + 1, by simp; omega, by omega, by simpa using hb4, hble⟩

theorem findSlabForItem_some {elemSize : Nat} {s : SlabState} {item i : Nat}
    (h : findSlabForItem elemSize s item = some i) :
    i < s.bases.length ∧ s.bases.getD i 0 ≤ item ∧
      item < s.bases.getD i 0 + selectBufferSize elemSize := by
  rw [findSlabForItem] at h
  rcases hp : predBase s item with _ | ⟨i2, b2⟩
  · rw [hp] at h
    cases h
  · rw [hp] at h
    dsimp only at h
    split at h
    · rename_i hrange
      have hii : i2 = i := Option.some.inj h
      rcases predBaseGo_some s.bases 0 none hp with hacc | ⟨m, hm, hi4, hb4, _⟩
      · cases hacc
      · have him : i = m := by omega
        subst him
        rw [hb4]
        exact ⟨hm, hrange.1, hrange.2⟩
    · cases h

theorem deallocateItem_ok_SlabInv {elemSize : Nat} {s : SlabState} {item : Nat}
    {s' : SlabState}
    (hinv : SlabInv elemSize s)
    (hok : deallocateItem elemSize s item = .ok s') :
    SlabInv elemSize s' ∧ s'.bases = s.bases := by
  obtain ⟨hlen, hocc, hcap, hfull, havail⟩ := hinv
  rw [deallocateItem] at hok
  by_cases h0 : item = 0
  · rw [if_pos h0] at hok
    have : s = s' := Except.ok.inj hok
    rw [← this]
    exact ⟨⟨hlen, hocc, hcap, hfull, havail⟩, rfl⟩
  · rw [if_neg h0] at hok
    split at hok
    · cases hok
    · rename_i i hf
      obtain ⟨hilt, _, _⟩ := findSlabForItem_some hf
      have hiM : i < s.slabMap.length := by omega
      have hocclen : (s.slabMap.getD i []).length = slotCount elemSize := by
        refine hocc _ ?_
        rw [List.getD_eq_getElem?_getD, List.getElem?_eq_getElem hiM]
        exact List.getElem_mem _
      dsimp only at hok
      split at hok
      · cases hok
      · rename_i hjlt
        split at hok
        · rename_i hbit
          have hs' := (Except.ok.inj hok).symm
          rw [hs']
          set j := (item - s.bases.getD i 0) / elemSize with hj
          refine ⟨⟨by simpa using hlen, ?_, by simpa using hcap, ?_, ?_⟩, rfl⟩
          · intro occ hmem
            rcases List.mem_or_eq_of_mem_set hmem with h | h
            · exact hocc _ h
            · rw [h, List.length_set]
              exact hocclen
          · intro k hk
            exact hfull _ (Finset.mem_of_mem_erase hk)
          · intro m hm
            simp only [availTest, decide_eq_true_eq]
            by_cases hmi : m = i
            · subst hmi
              constructor
              · intro _
                refine ⟨j, by omega, ?_⟩
                have hgetD : ((s.slabMap.set m ((s.slabMap.getD m []).set j false)).getD m []) =
                    (s.slabMap.getD m []).set j false := by
                  rw [List.getD_eq_getElem?_getD, List.getElem?_set_self (by simpa using hiM)]
                  rfl
                rw [hgetD, List.getD_eq_getElem?_getD,
                  List.getElem?_set_self (by omega)]
                rfl
              · intro _
                exact Finset.not_mem_erase m s.fullSet
            · have hgetD : ((s.slabMap.set i ((s.slabMap.getD i []).set j false)).getD m []) =
                  s.slabMap.getD m [] := by
                rw [List.getD_eq_getElem?_getD, List.getElem?_set_ne (fun h => hmi h.symm),
                  ← List.getD_eq_getElem?_getD]
              rw [hgetD]
              have hmem : (m ∉ s.fullSet.erase i) ↔ m ∉ s.fullSet := by
                simp [Finset.mem_erase, hmi]
              rw [hmem]
              have := havail m (by simpa using hm)
              simpa [availTest] using this
        · cases hok

theorem slabConstruct_SlabInv {elemSize : Nat} {sigma : Nat → Nat} {s : SlabState}
    (hE : 0 < elemSize) (h : slabConstruct elemSize sigma = .ok s) :
    SlabInv elemSize s := by
  rw [slabConstruct, allocateNewSlab] at h
  split at h
  · cases h
  · rename_i hcap
    have hs := (Except.ok.inj h).symm
    rw [hs, pushChunk]
    refine ⟨by simp, ?_, by simp; omega, by simp, ?_⟩
    · intro occ hmem
      simp at hmem
      rw [hmem]
      exact List.length_replicate _ _
    · intro i hi
      simp only [List.length_nil, List.length_append, List.length_cons] at hi
      have : i = 0 := by omega
      subst this
      simp only [availTest]
      constructor
      · intro _
        refine ⟨0, slotCount_pos hE, ?_⟩
        rw [List.getD_eq_getElem?_getD]
        simp [List.getElem?_replicate, slotCount_pos hE]
      · intro _
        simp

theorem SlabReach_SlabInv {elemSize : Nat} {sigma : Nat → Nat} {s : SlabState}
    (hE : 0 < elemSize) (h : SlabReach elemSize sigma s) : SlabInv elemSize s := by
  induction h with
  | init hc => exact slabConstruct_SlabInv hE hc
  | alloc _ hok ih => exact allocateItem_ok_SlabInv hE ih hok
  | dealloc _ hok ih => exact (deallocateItem_ok_SlabInv ih hok).1

/-! ### Concrete instances used by witnesses -/

/-- C1: for a Slab of class size C and a request of size at most C,
`allocateItem` scans the availability bitmap from index 0 upward for the
first set bit i (hypotheses `hi`, `hfst`), grows by a new chunk when i is
at least the number of existing chunks, finds the first 0 bit j in chunk
i's occupancy bitmap, sets it, returns `chunk_base[i] + j * C`, and
clears availability bit i exactly when chunk i's occupancy bitmap has
become all-ones — that algorithm is `allocateItemSpec`, transcribed from
the specification's wording, and on every slab state satisfying the slab
invariant (with the scan not exhausted, `him`) `allocateItem` returns
exactly its result. -/
theorem C1_allocateItem_follows_first_fit_spec {elemSize : Nat} {sigma : Nat → Nat}
    {s : SlabState} {size i : Nat}
    (hE : 0 < elemSize)
    (hinv : SlabInv elemSize s)
    (hsz : size ≤ elemSize)
    (hi : availTest s i = true)
    (hfst : ∀ m < i, availTest s m = false)
    (him : i < maxSlabs elemSize) :
    ∃ r, allocateItemSpec elemSize sigma s i = some r ∧
      allocateItem elemSize sigma s size = .ok r :=
  allocateItem_firstFit hE hinv hsz hi hfst him

/-- Witness for C1: class 1024, freshly constructed slab, request of 1000
bytes; the first set availability bit is 0. -/
theorem C1_witness :
    ∃ r, allocateItemSpec 1024 sigmaA slabA 0 = some r ∧
      allocateItem 1024 sigmaA slabA 1000 = .ok r :=
  C1_allocateItem_follows_first_fit_spec (by decide) (by decide) (by decide)
    (by decide) (by decide) (by decide)

/-- C2: in every slab state reachable from `Slab` construction by
successful `allocateItem`/`deallocateItem` calls, the availability bit of
each existing chunk is set if and only if that chunk's occupancy bitmap
still has a 0 bit. -/
theorem C2_availability_bit_iff_free_slot {elemSize : Nat} {sigma : Nat → Nat}
    {s : SlabState} (hE : 0 < elemSize) (h : SlabReach elemSize sigma s) :
    ∀ i < s.bases.length,
      (availTest s i = true ↔
        ∃ j < slotCount elemSize, (s.slabMap.getD i []).getD j true = false) :=
  (SlabReach_SlabInv hE h).2.2.2.2

/-- Witness for C2: the freshly constructed `Slab<1024>` state, chunk 0. -/
theorem C2_witness :
    availTest slabA 0 = true ↔
      ∃ j < slotCount 1024, (slabA.slabMap.getD 0 []).getD j true = false :=
  @C2_availability_bit_iff_free_slot 1024 sigmaA slabA (by decide)
    (SlabReach.init (by decide)) 0 (by decide)

theorem selectSlab_none_of_gt {size : Nat} (h : 1024 < size) :
    selectSlab size = none := by
  rw [selectSlab]
  repeat rw [if_neg (by omega)]

set_option maxHeartbeats 2000000

/-- C4: the class selector is a pure function of the total allocation
size: it returns the smallest ladder class at least the size, selects the
large backend (`none`) exactly when the size exceeds 1024, and in
particular maps 32 to class 32 (index 1), not 48. -/
theorem C4_selectSlab_smallest_fit (size : Nat) :
    Option.map (fun i => ladder.getD i 0) (selectSlab size) =
      ladder.find? (fun c => decide (size ≤ c)) ∧
    (selectSlab size = none ↔ 1024 < size) ∧
    selectSlab 32 = some 1 ∧ ladder.getD 1 0 = 32 := by
  refine ⟨?_, ?_, by decide, by decide⟩
  · rw [selectSlab, ladder]
    split_ifs with h1 h2 h3 h4 h5 h6 h7 h8 h9 h10 h11 h12
    all_goals repeat rw [List.find?_cons_of_neg _ (by simp; omega)]
    all_goals try rw [List.find?_cons_of_pos _ (by simp; omega)]
    all_goals rfl
  · constructor
    · intro h
      by_contra hle
      rw [selectSlab] at h
      split_ifs at h <;> simp_all
    · exact selectSlab_none_of_gt

theorem checkAlignment_valid {alignment : Nat}
    (h : alignment = 4 ∨ alignment = 8 ∨ alignment = 16) :
    checkAlignment alignment = .ok () := by
  rcases h with rfl | rfl | rfl <;> rfl

/-- C6 (amended): `Pool::allocate` raises `OutOfRange` on its own size
check exactly for `user_bytes > 1 GiB` — the check ignores the header —
while a request in the boundary strip `1 GiB - header < user_bytes ≤
1 GiB` (with a valid alignment) slips past it, reaches the `SlabProxy`,
and dies on the debug assertion `elem_size <= 1_GB`
(`preconditionViolated`) instead of `OutOfRange`.  Either failure happens
before any state is mutated. -/
theorem C6_one_gib_limit (sigma : Nat → Nat → Nat) (p : PoolState)
    (itemSize alignment : Nat) :
    (oneGB < itemSize → poolAllocate sigma p itemSize alignment = .error .outOfRange) ∧
    ((alignment = 4 ∨ alignment = 8 ∨ alignment = 16) → itemSize ≤ oneGB →
      oneGB < itemSize + (if 8 < alignment then alignment else 8) →
      poolAllocate sigma p itemSize alignment = .error .preconditionViolated) := by
  constructor
  · intro h
    rw [poolAllocate, if_pos h]
  · intro ha hle hgt
    rw [poolAllocate, if_neg (Nat.not_lt.mpr hle), checkAlignment_valid ha]
    have hover : 1024 < itemSize + (if 8 < alignment then alignment else 8) := by
      have : (1024 : Nat) < oneGB := by decide
      omega
    dsimp only
    rw [selectSlab_none_of_gt hover]
    dsimp only
    rw [slabProxyAllocateItem, if_neg (by push_neg; omega), if_pos (by omega)]

/-- Counterexample to C6 as stated: user_bytes = 2^30 exceeds
1 GiB - header (with alignment 8 the header is 8 bytes), so the claim
demands `OutOfRange`; the code instead fails the `SlabProxy` debug
assertion (`preconditionViolated`). -/
theorem C6_counterexample :
    poolAllocate (fun _ _ => 4096) default 1073741824 8 = .error .preconditionViolated ∧
    poolAllocate (fun _ _ => 4096) default 1073741824 8 ≠ .error .outOfRange := by
  have h0 : poolAllocate (fun _ _ => 4096) (default : PoolState) 1073741824 8 =
      .error .preconditionViolated := rfl
  refine ⟨h0, ?_⟩
  rw [h0]
  simp

/-- Witness for C6: a request just above 1 GiB raises `OutOfRange`; a
request of exactly 1 GiB (header 8) dies on the assertion instead. -/
theorem C6_witness :
    poolAllocate (fun _ _ => 4096) default 1073741825 8 = .error .outOfRange ∧
    poolAllocate (fun _ _ => 4096) default 1073741820 8 = .error .preconditionViolated :=
  ⟨(C6_one_gib_limit _ default 1073741825 8).1 (by decide),
    (C6_one_gib_limit _ default 1073741820 8).2 (Or.inr (Or.inl rfl)) (by decide) (by decide)⟩

theorem checkAlignment_ok_iff {alignment : Nat} :
    checkAlignment alignment = .ok () ↔
      (alignment = 4 ∨ alignment = 8 ∨ alignment = 16) := by
  constructor
  · intro h
    rw [checkAlignment] at h
    split at h
    · cases h
    · split at h
      · cases h
      · split at h
        · cases h
        · rename_i h1 h2 h3
          push_neg at h1 h2
          obtain ⟨h14, hpow⟩ := h1
          interval_cases alignment <;> simp_all
  · rintro (rfl | rfl | rfl) <;> rfl

theorem checkAlignment_invalid {alignment : Nat}
    (h : ¬ (alignment = 4 ∨ alignment = 8 ∨ alignment = 16)) :
    checkAlignment alignment = .error .preconditionViolated := by
  rw [checkAlignment]
  by_cases h1 : 4 ≤ alignment ∧ alignment &&& (alignment - 1) = 0
  · rw [if_neg (by simpa using h1)]
    by_cases h2 : alignment ≤ 16
    · exfalso
      obtain ⟨h14, hpow⟩ := h1
      interval_cases alignment <;> simp_all
    · rw [if_pos (by simpa using h2)]
  · rw [if_pos (by simpa using h1)]

/-- C7 (amended): in the debug build, `Pool::allocate`'s alignment
validation passes exactly for alignments 4, 8 and 16; every other
alignment (e.g. 32, or the in-range non-power-of-two 12) fails the debug
`runtime_assert` — aborting with `preconditionViolated` — before the
`std::invalid_argument` throw can be reached. -/
theorem C7_alignment_accepted_iff_4_8_16 (alignment : Nat) :
    (checkAlignment alignment = .ok () ↔
      (alignment = 4 ∨ alignment = 8 ∨ alignment = 16)) ∧
    (∀ (sigma : Nat → Nat → Nat) (p : PoolState) (itemSize : Nat),
      itemSize ≤ oneGB → ¬ (alignment = 4 ∨ alignment = 8 ∨ alignment = 16) →
      poolAllocate sigma p itemSize alignment = .error .preconditionViolated) := by
  refine ⟨checkAlignment_ok_iff, ?_⟩
  intro sigma p itemSize hsz hbad
  rw [poolAllocate, if_neg (Nat.not_lt.mpr hsz), checkAlignment_invalid hbad]

/-- Counterexample to C7 as stated: alignment 32 is not a power of two in
{4, 8, 16}, and the call does fail — but with the debug assertion
(`preconditionViolated`), not with `invalid_argument` as the claim
says. -/
theorem C7_counterexample :
    poolAllocate (fun _ _ => 4096) default 8 32 = .error .preconditionViolated ∧
    poolAllocate (fun _ _ => 4096) default 8 32 ≠ .error .invalidArgument := by
  have h0 : poolAllocate (fun _ _ => 4096) (default : PoolState) 8 32 =
      .error .preconditionViolated := rfl
  refine ⟨h0, ?_⟩
  rw [h0]
  simp

/-- Witness for C7: alignment 8 passes validation; alignment 12 (in the
4..16 range but not a power of two) is rejected by the assertion. -/
theorem C7_witness :
    checkAlignment 8 = .ok () ∧
    poolAllocate (fun _ _ => 8192) default 16 12 = .error .preconditionViolated :=
  ⟨(C7_alignment_accepted_iff_4_8_16 8).1.mpr (Or.inr (Or.inl rfl)),
    (C7_alignment_accepted_iff_4_8_16 12).2 _ default 16 (by decide) (by decide)⟩

theorem writeByte_at {m : Nat → Nat} {a v : Nat} : writeByte m a v a = v % 256 := by
  simp [writeByte]

theorem writeByte_ne {m : Nat → Nat} {a v x : Nat} (h : x ≠ a) : writeByte m a v x = m x := by
  simp [writeByte, h]

theorem readU32LE_writeU32LE (m : Nat → Nat) (a v : Nat) :
    readU32LE (writeU32LE m a v) a = v % 4294967296 := by
  rw [readU32LE, writeU32LE]
  rw [show writeByte (writeByte (writeByte (writeByte m a v) (a + 1) (v / 256))
        (a + 2) (v / 65536)) (a + 3) (v / 16777216) a = v % 256 from by
      rw [writeByte_ne (by omega), writeByte_ne (by omega), writeByte_ne (by omega),
        writeByte_at]]
  rw [show writeByte (writeByte (writeByte (writeByte m a v) (a + 1) (v / 256))
        (a + 2) (v / 65536)) (a + 3) (v / 16777216) (a + 1) = v / 256 % 256 from by
      rw [writeByte_ne (by omega), writeByte_ne (by omega), writeByte_at]]
  rw [show writeByte (writeByte (writeByte (writeByte m a v) (a + 1) (v / 256))
        (a + 2) (v / 65536)) (a + 3) (v / 16777216) (a + 2) = v / 65536 % 256 from by
      rw [writeByte_ne (by omega), writeByte_at]]
  rw [writeByte_at]
  omega

theorem readU32LE_writeByte_out {m : Nat → Nat} {a b w : Nat}
    (h : b ≠ a ∧ b ≠ a + 1 ∧ b ≠ a + 2 ∧ b ≠ a + 3) :
    readU32LE (writeByte m b w) a = readU32LE m a := by
  rw [readU32LE, readU32LE,
    writeByte_ne (fun hx => h.1 hx.symm),
    writeByte_ne (fun hx => h.2.1 hx.symm),
    writeByte_ne (fun hx => h.2.2.1 hx.symm),
    writeByte_ne (fun hx => h.2.2.2 hx.symm)]

theorem readU8_writeByte_at {m : Nat → Nat} {a v : Nat} :
    readU8 (writeByte m a v) a = v % 256 := by
  rw [readU8, writeByte_at]
  omega

/-- Success shape of `Pool::allocate` through a small slab. -/
theorem poolAllocate_small {sigma : Nat → Nat → Nat} {p : PoolState}
    {itemSize alignment idx : Nat} {s' : SlabState} {ptr : Nat}
    (hle : ¬ oneGB < itemSize)
    (hal : checkAlignment alignment = .ok ())
    (hsel : selectSlab (itemSize + (if 8 < alignment then alignment else 8)) = some idx)
    (halloc : allocateItem (ladder.getD idx 0) (sigma idx) (p.slabs.getD idx default)
        (itemSize + (if 8 < alignment then alignment else 8)) = .ok (s', ptr)) :
    poolAllocate sigma p itemSize alignment = .ok
      ({ slabs := p.slabs.set idx s'
         mem := writeByte
           (writeU32LE p.mem (ptr + (if 8 < alignment then alignment else 8) - 4)
             (itemSize + (if 8 < alignment then alignment else 8)))
           (ptr + (if 8 < alignment then alignment else 8) - 5)
           (if 8 < alignment then alignment else 8)
         largeCount := p.largeCount },
       ptr + (if 8 < alignment then alignment else 8)) := by
  rw [poolAllocate, if_neg hle, hal]
  dsimp only
  rw [hsel]
  dsimp only
  rw [halloc]

/-- Success shape of `Pool::allocate` through the `SlabProxy`. -/
theorem poolAllocate_large {sigma : Nat → Nat → Nat} {p : PoolState}
    {itemSize alignment : Nat} {ptr : Nat}
    (hle : ¬ oneGB < itemSize)
    (hal : checkAlignment alignment = .ok ())
    (hsel : selectSlab (itemSize + (if 8 < alignment then alignment else 8)) = none)
    (hproxy : slabProxyAllocateItem (sigma 12 p.largeCount)
        (itemSize + (if 8 < alignment then alignment else 8)) = .ok ptr) :
    poolAllocate sigma p itemSize alignment = .ok
      ({ slabs := p.slabs
         mem := writeByte
           (writeU32LE p.mem (ptr + (if 8 < alignment then alignment else 8) - 4)
             (itemSize + (if 8 < alignment then alignment else 8)))
           (ptr + (if 8 < alignment then alignment else 8) - 5)
           (if 8 < alignment then alignment else 8)
         largeCount := p.largeCount + 1 },
       ptr + (if 8 < alignment then alignment else 8)) := by
  rw [poolAllocate, if_neg hle, hal]
  dsimp only
  rw [hsel]
  dsimp only
  rw [hproxy]

/-- Inversion of a successful `Pool::allocate`. -/
theorem poolAllocate_ok_inv {sigma : Nat → Nat → Nat} {p : PoolState}
    {itemSize alignment : Nat} {p' : PoolState} {uptr : Nat}
    (h : poolAllocate sigma p itemSize alignment = .ok (p', uptr)) :
    itemSize ≤ oneGB ∧ (alignment = 4 ∨ alignment = 8 ∨ alignment = 16) ∧
    ∃ ptr,
      uptr = ptr + (if 8 < alignment then alignment else 8) ∧
      p'.mem = writeByte
        (writeU32LE p.mem (ptr + (if 8 < alignment then alignment else 8) - 4)
          (itemSize + (if 8 < alignment then alignment else 8)))
        (ptr + (if 8 < alignment then alignment else 8) - 5)
        (if 8 < alignment then alignment else 8) ∧
      ((∃ idx s',
          selectSlab (itemSize + (if 8 < alignment then alignment else 8)) = some idx ∧
          allocateItem (ladder.getD idx 0) (sigma idx) (p.slabs.getD idx default)
            (itemSize + (if 8 < alignment then alignment else 8)) = .ok (s', ptr)) ∨
        (selectSlab (itemSize + (if 8 < alignment then alignment else 8)) = none ∧
          ptr = sigma 12 p.largeCount)) := by
  rw [poolAllocate] at h
  split at h
  · cases h
  · rename_i hle
    rcases hca : checkAlignment alignment with e | u
    · rw [hca] at h
      cases h
    · rw [hca] at h
      dsimp only at h
      cases u
      refine ⟨by omega, checkAlignment_ok_iff.mp hca, ?_⟩
      split at h
      · rename_i idx hsel
        split at h
        · cases h
        · rename_i s' ptr halloc
          have hpair := Except.ok.inj h
          injection hpair with h1 h2
          subst h1
          subst h2
          exact ⟨ptr, rfl, rfl, Or.inl ⟨idx, s', hsel, halloc⟩⟩
      · rename_i hsel
        split at h
        · cases h
        · rename_i ptr hproxy
          have hptr : ptr = sigma 12 p.largeCount := by
            rw [slabProxyAllocateItem] at hproxy
            split_ifs at hproxy <;> exact (Except.ok.inj hproxy).symm
          have hpair := Except.ok.inj h
          injection hpair with h1 h2
          subst h1
          subst h2
          exact ⟨ptr, rfl, rfl, Or.inr ⟨hsel, hptr⟩⟩

/-- C3: for every successful `Pool::allocate(user_bytes, alignment)`, with
`header_size = max(8, alignment)` and `alloc_size = user_bytes +
header_size`, the little-endian u32 in the 4 bytes before the returned
user pointer is `alloc_size`, the byte at `user_ptr - 5` is
`header_size`, and `Pool::deallocate` of that pointer reads both back
unchanged and forwards `user_ptr - header_size` — the slot base the
underlying arena returned — to that arena. -/
theorem C3_header_roundtrip {sigma : Nat → Nat → Nat} {p : PoolState}
    {userBytes alignment : Nat} {p' : PoolState} {uptr : Nat}
    (h : poolAllocate sigma p userBytes alignment = .ok (p', uptr)) :
    readU32LE p'.mem (uptr - 4) = userBytes + (if 8 < alignment then alignment else 8) ∧
    readU8 p'.mem (uptr - 5) = (if 8 < alignment then alignment else 8) ∧
    (if 8 < alignment then alignment else 8) = max 8 alignment ∧
    poolDeallocate p' uptr =
      poolDeallocAt p' (userBytes + (if 8 < alignment then alignment else 8))
        (uptr - (if 8 < alignment then alignment else 8)) ∧
    ((∃ idx s',
        selectSlab (userBytes + (if 8 < alignment then alignment else 8)) = some idx ∧
        allocateItem (ladder.getD idx 0) (sigma idx) (p.slabs.getD idx default)
          (userBytes + (if 8 < alignment then alignment else 8)) =
          .ok (s', uptr - (if 8 < alignment then alignment else 8))) ∨
      (selectSlab (userBytes + (if 8 < alignment then alignment else 8)) = none ∧
        uptr - (if 8 < alignment then alignment else 8) = sigma 12 p.largeCount)) := by
  obtain ⟨hle, hal, ptr, hup, hmem, harena⟩ := poolAllocate_ok_inv h
  have hH : 8 ≤ (if 8 < alignment then alignment else 8) ∧
      (if 8 < alignment then alignment else 8) ≤ 16 := by
    rcases hal with rfl | rfl | rfl <;> simp
  set H := if 8 < alignment then alignment else 8 with hHdef
  have hGB : oneGB = 1073741824 := rfl
  rw [hGB] at hle
  have hA : readU32LE p'.mem (ptr + H - 4) = userBytes + H := by
    rw [hmem, readU32LE_writeByte_out (by omega), readU32LE_writeU32LE,
      Nat.mod_eq_of_lt (by omega)]
  have hB : readU8 p'.mem (ptr + H - 5) = H := by
    rw [hmem, readU8_writeByte_at, Nat.mod_eq_of_lt (by omega)]
  have hup4 : uptr - 4 = ptr + H - 4 := by omega
  have hup5 : uptr - 5 = ptr + H - 5 := by omega
  refine ⟨by rw [hup4]; exact hA, by rw [hup5]; exact hB, ?_, ?_, ?_⟩
  · rcases hal with rfl | rfl | rfl <;> simp [hHdef]
  · rw [poolDeallocate, if_neg (by omega), hup4, hup5, hA, hB, hup]
  · have hptr : ptr = uptr - H := by omega
    rcases harena with ⟨idx, s', hsel, halloc⟩ | ⟨hsel, hlarge⟩
    · rw [hptr] at halloc
      exact Or.inl ⟨idx, s', hsel, halloc⟩
    · rw [hptr] at hlarge
      exact Or.inr ⟨hsel, hlarge⟩

/-- Witness for C3: `allocate(120, 8)` on an empty pool model serves class
128 from slab 5 at slot base 60000; user pointer 60008; alloc_size 128
and header_size 8 are read back by `deallocate`, which forwards 60000. -/
theorem C3_witness :
    poolAllocate sigmaP default 120 8 =
      .ok (⟨[], writeByte (writeU32LE (fun _ => 0) 60004 128) 60003 8, 0⟩, 60008) ∧
    readU32LE (writeByte (writeU32LE (fun _ => 0) 60004 128) 60003 8) 60004 = 128 ∧
    readU8 (writeByte (writeU32LE (fun _ => 0) 60004 128) 60003 8) 60003 = 8 ∧
    poolDeallocate ⟨[], writeByte (writeU32LE (fun _ => 0) 60004 128) 60003 8, 0⟩ 60008 =
      poolDeallocAt ⟨[], writeByte (writeU32LE (fun _ => 0) 60004 128) 60003 8, 0⟩
        128 60000 := by
  obtain ⟨r, hspec, halloc⟩ := @allocateItem_firstFit 128 (sigmaP 5) default 128 0
    (by decide) (by decide) (by decide) (by decide) (by decide) (by decide)
  have hr : r = (⟨[60000], [(List.replicate 32 false).set 0 true], ∅⟩, 60000) := by
    have hs : allocateItemSpec 128 (sigmaP 5) default 0 =
        some (⟨[60000], [(List.replicate 32 false).set 0 true], ∅⟩, 60000) := by decide
    rw [hs] at hspec
    exact (Option.some.inj hspec).symm
  rw [hr] at halloc
  have hok : poolAllocate sigmaP default 120 8 =
      .ok (⟨[], writeByte (writeU32LE (fun _ => 0) 60004 128) 60003 8, 0⟩, 60008) := by
    have := @poolAllocate_small sigmaP default 120 8 5
      ⟨[60000], [(List.replicate 32 false).set 0 true], ∅⟩ 60000
      (by decide) rfl (by decide) halloc
    exact this
  have hmain := C3_header_roundtrip hok
  refine ⟨hok, ?_, ?_, ?_⟩
  · have := hmain.1
    norm_num at this
    exact this
  · have := hmain.2.1
    norm_num at this
    exact this
  · have := hmain.2.2.2.1
    norm_num at this
    exact this

/-- C5 (amended): for every slab and every NON-NULL pointer `p` (passing
null returns silently, a no-op): if the predecessor query finds no chunk
whose half-open range contains `p` — in particular whenever no chunk
contains `p` — or if the occupancy bit of `p`'s slot is already 0,
`deallocateItem` fails with `invalid_argument`; the throw happens before
any mutation, so chunk sequence, occupancy bitmaps and availability
bitmap are unchanged. -/
theorem C5_deallocate_unknown_or_free_pointer {elemSize : Nat} {s : SlabState} {p : Nat}
    (hp : p ≠ 0) :
    ((∀ i < s.bases.length,
        ¬ (s.bases.getD i 0 ≤ p ∧ p < s.bases.getD i 0 + selectBufferSize elemSize)) →
      findSlabForItem elemSize s p = none ∧
      deallocateItem elemSize s p = .error .invalidArgument) ∧
    (∀ i, findSlabForItem elemSize s p = some i →
      (p - s.bases.getD i 0) / elemSize < (s.slabMap.getD i []).length →
      (s.slabMap.getD i []).getD ((p - s.bases.getD i 0) / elemSize) false = false →
      deallocateItem elemSize s p = .error .invalidArgument) := by
  constructor
  · intro hnone
    have hfind : findSlabForItem elemSize s p = none := by
      rcases hf : findSlabForItem elemSize s p with _ | i
      · rfl
      · obtain ⟨hi, h1, h2⟩ := findSlabForItem_some hf
        exact absurd ⟨h1, h2⟩ (hnone i hi)
    refine ⟨hfind, ?_⟩
    rw [deallocateItem, if_neg hp, hfind]
  · intro i hf hjlt hbit
    rw [deallocateItem, if_neg hp, hf]
    dsimp only
    simp only [List.getD_eq_getElem?_getD] at hbit
    rw [if_neg (by omega), if_neg (by simp [hbit])]

/-- Counterexample to C5 as stated: the null pointer lies in no chunk (the
predecessor query yields none), yet `deallocateItem` returns silently
instead of failing with `invalid_argument`. -/
theorem C5_counterexample :
    deallocateItem 1024 slabA 0 = .ok slabA ∧ findSlabForItem 1024 slabA 0 = none :=
  ⟨by decide, by decide⟩

/-- Witness for C5: on the fresh `Slab<1024>`, pointer 1 lies in no chunk
and pointer 4096 is a never-allocated slot; both deallocations fail. -/
theorem C5_witness :
    deallocateItem 1024 slabA 1 = .error .invalidArgument ∧
    deallocateItem 1024 slabA 4096 = .error .invalidArgument :=
  ⟨((C5_deallocate_unknown_or_free_pointer (by decide)).1 (by decide)).2,
    (C5_deallocate_unknown_or_free_pointer (by decide)).2 0 (by decide) (by decide)
      (by decide)⟩

theorem growWhile_ok_bases {elemSize : Nat} {sigma : Nat → Nat} :
    ∀ (m : Nat) (s : SlabState) (k : Nat) (s' : SlabState),
      k + 1 - s.bases.length ≤ m → growWhile elemSize sigma s k = .ok s' →
      s.bases.length ≤ s'.bases.length := by
  intro m
  induction m with
  | zero =>
    intro s k s' hm hok
    rw [growWhile_stop (by omega)] at hok
    rw [Except.ok.inj hok]
  | succ m ih =>
    intro s k s' hm hok
    by_cases hk : s.bases.length ≤ k
    · by_cases hcap : maxSlabs elemSize ≤ s.bases.length
      · rw [growWhile_fail hk hcap] at hok
        cases hok
      · rw [growWhile_step hk (by omega)] at hok
        have hpl : (pushChunk elemSize sigma s).bases.length = s.bases.length + 1 := by
          simp [pushChunk]
        have := ih (pushChunk elemSize sigma s) k s' (by omega) hok
        omega
    · rw [growWhile_stop (by omega)] at hok
      rw [Except.ok.inj hok]

theorem allocLoop_ok_bases {elemSize : Nat} {sigma : Nat → Nat} :
    ∀ (m k : Nat) (s s' : SlabState) (a : Nat),
      maxSlabs elemSize + 1 - k ≤ m → allocLoop elemSize sigma s k = .ok (s', a) →
      s.bases.length ≤ s'.bases.length := by
  intro m
  induction m with
  | zero =>
    intro k s s' a hm hok
    by_cases h1 : s.slabMap.length < k
    · rw [allocLoop_exit_overrun h1] at hok
      cases hok
    · rw [allocLoop_exit_max (by omega) (by omega)] at hok
      cases hok
  | succ m ih =>
    intro k s s' a hm hok
    by_cases h1 : s.slabMap.length < k
    · rw [allocLoop_exit_overrun h1] at hok
      cases hok
    · by_cases h2 : maxSlabs elemSize ≤ k
      · rw [allocLoop_exit_max (by omega) h2] at hok
        cases hok
      · by_cases h3 : availTest s k = false
        · rw [allocLoop_continue (by omega) (by omega) h3] at hok
          exact ih (k + 1) s s' a (by omega) hok
        · have h3' : availTest s k = true := by
            revert h3
            cases availTest s k <;> simp
          rcases hgw : growWhile elemSize sigma s k with e | s1
          · rw [allocLoop_grow_fail (by omega) (by omega) h3' hgw] at hok
            cases hok
          · have hb1 := growWhile_ok_bases (k + 1) s k s1 (by omega) hgw
            rcases hf : findFreeSlot (s1.slabMap.getD k []) with _ | j
            · rw [allocLoop_scan_fail (by omega) (by omega) h3' hgw hf] at hok
              have := ih (k + 1) s1 s' a (by omega) hok
              omega
            · rw [allocLoop_found (by omega) (by omega) h3' hgw hf] at hok
              have hpair := Except.ok.inj hok
              injection hpair with hs ha
              rw [← hs]
              exact hb1

theorem allocateItem_ok_bases {elemSize : Nat} {sigma : Nat → Nat} {s : SlabState}
    {size : Nat} {s' : SlabState} {a : Nat}
    (hok : allocateItem elemSize sigma s size = .ok (s', a)) :
    s.bases.length ≤ s'.bases.length := by
  rw [allocateItem] at hok
  split at hok
  · cases hok
  · exact allocLoop_ok_bases (maxSlabs elemSize + 1) 0 s s' a (by omega) hok

theorem deallocateItem_ok_bases {elemSize : Nat} {s : SlabState} {item : Nat}
    {s' : SlabState} (hok : deallocateItem elemSize s item = .ok s') :
    s'.bases = s.bases := by
  rw [deallocateItem] at hok
  split at hok
  · rw [← Except.ok.inj hok]
  · split at hok
    · cases hok
    · dsimp only at hok
      split at hok
      · cases hok
      · split at hok
        · rw [← Except.ok.inj hok]
        · cases hok

theorem slabConstruct_ok_shape {elemSize : Nat} {sigma : Nat → Nat} {s : SlabState}
    (h : slabConstruct elemSize sigma = .ok s) :
    s = ⟨[sigma 0], [List.replicate (slotCount elemSize) false], ∅⟩ := by
  rw [slabConstruct, allocateNewSlab] at h
  split at h
  · cases h
  · exact (Except.ok.inj h).symm

/-- C10: a Slab owns at least one chunk at all times — the constructor
eagerly allocates the first chunk (so a fresh Pool holds one 4 KiB chunk
for each of the twelve classes), `allocateItem` never shrinks the chunk
sequence, `deallocateItem` leaves it untouched, and every reachable slab
state has a nonempty chunk sequence. -/
theorem C10_every_slab_owns_a_chunk :
    (∀ sigma : Nat → Nat → Nat, ∃ p, poolConstruct sigma = .ok p ∧
      p.slabs.length = 12 ∧ (∀ s ∈ p.slabs, s.bases.length = 1) ∧
      ∀ c ∈ ladder, selectBufferSize c = 4096) ∧
    (∀ (elemSize : Nat) (sigma : Nat → Nat) (s : SlabState) (size : Nat)
      (s' : SlabState) (a : Nat),
      allocateItem elemSize sigma s size = .ok (s', a) →
      s.bases.length ≤ s'.bases.length) ∧
    (∀ (elemSize : Nat) (s : SlabState) (item : Nat) (s' : SlabState),
      deallocateItem elemSize s item = .ok s' → s'.bases = s.bases) ∧
    (∀ (elemSize : Nat) (sigma : Nat → Nat) (s : SlabState),
      SlabReach elemSize sigma s → 1 ≤ s.bases.length) := by
  refine ⟨?_, fun _ _ _ _ _ _ h => allocateItem_ok_bases h,
    fun _ _ _ _ h => deallocateItem_ok_bases h, ?_⟩
  · intro sigma
    refine ⟨_, rfl, rfl, ?_, by decide⟩
    intro s hs
    simp only [List.mem_cons, List.not_mem_nil, or_false] at hs
    rcases hs with rfl | rfl | rfl | rfl | rfl | rfl | rfl | rfl | rfl | rfl | rfl | rfl <;>
      rfl
  · intro elemSize sigma s h
    induction h with
    | init hc =>
      rw [slabConstruct_ok_shape hc]
      simp
    | alloc _ hok ih =>
      have := allocateItem_ok_bases hok
      omega
    | dealloc _ hok ih =>
      rw [deallocateItem_ok_bases hok]
      exact ih

/-- Witness for C10: the freshly constructed `Slab<1024>` state is
reachable and owns one chunk. -/
theorem C10_witness : 1 ≤ slabA.bases.length :=
  C10_every_slab_owns_a_chunk.2.2.2 1024 sigmaA slabA (SlabReach.init (by decide))

theorem getD_some_lt {α : Type} {l : List (Option α)} {b : Nat} {c : α}
    (h : l.getD b none = some c) : b < l.length := by
  by_contra hge
  rw [List.getD_eq_getElem?_getD, List.getElem?_eq_none (by omega)] at h
  cases h

/-- C9: `isAlive()` is true exactly when the ControlBlock's owner count is
positive; consequently, destroying the last Owner handle while an
Observer shares the block flips the Observer's `isAlive()` to false, and
the block survives (the Observer stays safely usable). -/
theorem C9_isAlive_iff_owner_count_positive :
    (∀ (st : LOState) (h b : Nat) (t : RefType) (c : Counts),
      st.handles.getD h none = some (b, t) → st.blocks.getD b none = some c →
      (isAlive st h = some true ↔ 0 < c.1)) ∧
    (∀ (st : LOState) (h o b : Nat) (k : Int),
      st.handles.getD h none = some (b, .owner) →
      st.handles.getD o none = some (b, .observer) →
      st.blocks.getD b none = some (1, k) → 0 < k →
      isAlive st o = some true ∧
      ∃ st', destroyHandle st h = some st' ∧
        st'.blocks.getD b none = some (0, k) ∧
        isAlive st' o = some false) := by
  have hiff : ∀ (st : LOState) (h b : Nat) (t : RefType) (c : Counts),
      st.handles.getD h none = some (b, t) → st.blocks.getD b none = some c →
      (isAlive st h = some true ↔ 0 < c.1) := by
    intro st h b t c hh hb
    rw [isAlive, hh]
    dsimp only
    rw [hb]
    dsimp only [getCountCB]
    simp
  refine ⟨hiff, ?_⟩
  intro st h o b k hh ho hb hk
  have hne : h ≠ o := by
    intro he
    rw [he, ho] at hh
    have := Option.some.inj hh
    simp at this
  have hblt : b < st.blocks.length := getD_some_lt hb
  have hd : destroyHandle st h =
      some { blocks := st.blocks.set b (some (0, k)), handles := st.handles.set h none } := by
    rw [destroyHandle, hh]
    dsimp only
    rw [hb]
    dsimp only [releaseRefCB, getCountCB]
    rw [if_neg (by norm_num), if_neg (by omega)]
    norm_num
  refine ⟨(hiff st o b .observer (1, k) ho hb).mpr (by norm_num), ?_⟩
  refine ⟨_, hd, ?_, ?_⟩
  · dsimp only
    rw [List.getD_eq_getElem?_getD, List.getElem?_set_self (by simpa using hblt)]
    rfl
  · rw [isAlive]
    dsimp only
    rw [show (st.handles.set h none).getD o none = st.handles.getD o none from by
        rw [List.getD_eq_getElem?_getD, List.getElem?_set_ne hne,
          ← List.getD_eq_getElem?_getD],
      ho]
    dsimp only
    rw [List.getD_eq_getElem?_getD, List.getElem?_set_self (by simpa using hblt)]
    rfl

/-- Witness for C9: dropping the single Owner of `loW` flips the
Observer's `isAlive` to false while its ControlBlock survives. -/
theorem C9_witness :
    isAlive loW 1 = some true ∧
    ∃ st', destroyHandle loW 0 = some st' ∧ st'.blocks.getD 0 none = some (0, 1) ∧
      isAlive st' 1 = some false :=
  C9_isAlive_iff_owner_count_positive.2 loW 0 1 0 1 (by decide) (by decide)
    (by decide) (by decide)

/-- C8, failing input: construct object A (Owner handle 0 on ControlBlock
0), register an Observer (handle 1) via `getObserver`, construct object B
(Owner handle 2 on ControlBlock 1), then move-assign B into A.  The move
assignment `delete`s A's old ControlBlock even though its owner count is
1 and its observer count is 1 — the claim (and spec) require the block to
survive while either count is positive — leaving the Observer handle
dangling (its `isAlive` dereferences freed memory, here `none`). -/
theorem C8_move_assignment_frees_live_control_block :
    getObserver (mkOwner ⟨[], []⟩) 0 =
      some ⟨[some (1, 1)], [some (0, .owner), some (0, .observer)]⟩ ∧
    (mkOwner ⟨[some (1, 1)], [some (0, .owner), some (0, .observer)]⟩).blocks.getD 0 none =
      some (1, 1) ∧
    moveAssign (mkOwner ⟨[some (1, 1)], [some (0, .owner), some (0, .observer)]⟩) 0 2 =
      some ⟨[none, some (1, 0), some (1, 0)],
        [some (1, .owner), some (0, .observer), some (2, .owner)]⟩ ∧
    (⟨[none, some (1, 0), some (1, 0)],
        [some (1, .owner), some (0, .observer), some (2, .owner)]⟩ : LOState).blocks.getD
      0 none = none ∧
    isAlive ⟨[none, some (1, 0), some (1, 0)],
      [some (1, .owner), some (0, .observer), some (2, .owner)]⟩ 1 = none := by
  refine ⟨by decide, by decide, by decide, by decide, by decide⟩

end SlabPool
